import Mathlib

/-!
# BlooBase/API — verification of the order-settlement, cart and seller-propagation core

This file shallowly embeds the route handlers of the BlooBase API server
(`src/index.js`, which contains three concatenated revisions of the server,
and `src/unnamed/part_000`, a fourth revision) and proves or refutes the
frozen claims about them.

Modelling conventions:
* A Firestore collection is an association list `List (String × α)`:
  `getDoc` is the document read, `setDoc` overwrites the document under a
  key, `eraseKey` deletes it.  `updateDoc` semantics (which *fail* on a
  missing document, unlike `set`) are modelled at the call sites.
* JS numbers are modelled as `ℚ` (no claim depends on binary rounding;
  the one rounding step, `toFixed(2)`, is modelled as exact half-up
  rounding on `ℚ`).
* A JS value that may be a currency string or a number is `PriceVal`.
* `Firestore increment` on a missing numeric field treats it as `0`;
  accordingly `Product.sales` is an `Int` whose default is `0`, while
  `Product.stock : Option Int` keeps track of the field being defined,
  which the code inspects (`stock !== undefined`).
-/

/-- A JS value used as a price: either a number or a (currency) string. -/
inductive PriceVal where
  | num (q : ℚ)
  | str (s : String)
deriving DecidableEq, Repr

/-- One cart line, as built by the `POST /api/cart/add` handlers:
`{id, name, price, imageUrl/image, Seller, quantity}`. -/
structure CartLine where
  id : String
  name : String
  price : PriceVal
  image : String
  Seller : String
  quantity : Int
deriving DecidableEq, Repr

/-- A `Carts/{userId}` document.  The handlers read `cartData.items || []`,
so a missing `items` field behaves exactly like an empty list and is
modelled as `[]`. -/
structure CartDoc where
  items : List CartLine
deriving DecidableEq, Repr

/-- An `Orders/{orderId}` document, as assembled by `POST /api/orders`.
`extra` holds the caller-supplied order-detail fields that are none of
the four named keys. -/
structure OrderDoc where
  userId : String
  items : List CartLine
  createdAt : String
  status : String
  extra : List (String × String)
deriving DecidableEq, Repr

/-- The request body of `POST /api/orders` (`orderDetails`).  The caller
may or may not supply each of the reserved keys; `extra` carries all
other fields. -/
structure OrderDetails where
  userId' : Option String
  items' : Option (List CartLine)
  createdAt' : Option String
  status' : Option String
  extra : List (String × String)
deriving DecidableEq, Repr

/-- A `Products/{id}` document.  Only the fields the verified handlers
read or write are modelled; `stock` is optional because the code
branches on `stock !== undefined`, and `sales` defaults to `0` (the
behaviour of `FieldValue.increment` on a missing field). -/
structure Product where
  Seller : String
  SellerID : String
  image : String
  name : String
  price : PriceVal
  stock : Option Int
  sales : Int
  genre : String
deriving DecidableEq, Repr

/-- A `Sellers/{userId}` document, as written by `POST /api/seller/card`.
`updatedAt` stands for the server timestamp. -/
structure SellerDoc where
  color : String
  description : String
  genre : String
  image : String
  textColor : String
  title : String
  userId : String
  updatedAt : Nat
deriving DecidableEq, Repr

/-- The Firestore database as seen by the verified handlers. -/
structure DB where
  carts : List (String × CartDoc)
  orders : List (String × OrderDoc)
  products : List (String × Product)
  sellers : List (String × SellerDoc)
deriving DecidableEq, Repr

/-- An HTTP response: a success body with its status code, or an error
status code with the handler's `error` message. -/
inductive HResp (α : Type) where
  | ok (code : Nat) (body : α)
  | err (code : Nat) (msg : String)
deriving DecidableEq, Repr

/-! ## Document-store primitives -/

/-- Read the document stored under `key` (Firestore `doc(key).get()`). -/
def getDoc : List (String × α) → String → Option α
  | [], _ => none
  | (k, v) :: rest, key => if k = key then some v else getDoc rest key

/-- Delete the document stored under `key` (Firestore `doc(key).delete()`). -/
def eraseKey : List (String × α) → String → List (String × α)
  | [], _ => []
  | (k, v) :: rest, key => if k = key then eraseKey rest key else (k, v) :: eraseKey rest key

/-- Write the document stored under `key` (Firestore `doc(key).set(v)`). -/
def setDoc (l : List (String × α)) (key : String) (v : α) : List (String × α) :=
  (key, v) :: eraseKey l key

@[simp] theorem getDoc_nil (key : String) : getDoc ([] : List (String × α)) key = none := rfl

theorem getDoc_eraseKey_ne (l : List (String × α)) (k key : String) (h : key ≠ k) :
    getDoc (eraseKey l k) key = getDoc l key := by
  induction l with
  | nil => rfl
  | cons kv rest ih =>
    obtain ⟨k1, v1⟩ := kv
    show getDoc (if k1 = k then eraseKey rest k else (k1, v1) :: eraseKey rest k) key = _
    by_cases hk : k1 = k
    · rw [if_pos hk, ih]
      show _ = if k1 = key then some v1 else getDoc rest key
      rw [if_neg (by rw [hk]; exact fun hh => h hh.symm)]
    · rw [if_neg hk]
      show (if k1 = key then some v1 else getDoc (eraseKey rest k) key)
            = if k1 = key then some v1 else getDoc rest key
      rw [ih]

@[simp] theorem getDoc_eraseKey_self (l : List (String × α)) (k : String) :
    getDoc (eraseKey l k) k = none := by
  induction l with
  | nil => rfl
  | cons kv rest ih =>
    obtain ⟨k1, v1⟩ := kv
    show getDoc (if k1 = k then eraseKey rest k else (k1, v1) :: eraseKey rest k) k = none
    by_cases hk : k1 = k
    · rw [if_pos hk]; exact ih
    · rw [if_neg hk]
      show (if k1 = k then some v1 else getDoc (eraseKey rest k) k) = none
      rw [if_neg hk]; exact ih

@[simp] theorem getDoc_setDoc_self (l : List (String × α)) (k : String) (v : α) :
    getDoc (setDoc l k v) k = some v := by
  show (if k = k then some v else getDoc (eraseKey l k) k) = some v
  rw [if_pos rfl]

theorem getDoc_setDoc_ne (l : List (String × α)) (k key : String) (v : α) (h : key ≠ k) :
    getDoc (setDoc l k v) key = getDoc l key := by
  show (if k = key then some v else getDoc (eraseKey l k) key) = getDoc l key
  rw [if_neg (fun hh => h hh.symm), getDoc_eraseKey_ne l k key h]

theorem mem_eraseKey {l : List (String × α)} {k : String} {kv : String × α} :
    kv ∈ eraseKey l k ↔ kv ∈ l ∧ kv.1 ≠ k := by
  induction l with
  | nil => simp [eraseKey]
  | cons hd rest ih =>
    obtain ⟨k1, v1⟩ := hd
    by_cases hk : k1 = k
    · rw [show eraseKey ((k1, v1) :: rest) k = eraseKey rest k from by simp [eraseKey, hk]]
      rw [ih]
      constructor
      · rintro ⟨h1, h2⟩; exact ⟨List.mem_cons_of_mem _ h1, h2⟩
      · rintro ⟨h1, h2⟩
        rcases List.mem_cons.mp h1 with h3 | h3
        · exact absurd (by rw [h3]; exact hk) h2
        · exact ⟨h3, h2⟩
    · rw [show eraseKey ((k1, v1) :: rest) k = (k1, v1) :: eraseKey rest k from by
        simp [eraseKey, hk]]
      simp only [List.mem_cons, ih]
      constructor
      · rintro (h1 | ⟨h1, h2⟩)
        · exact ⟨Or.inl h1, by rw [h1]; exact hk⟩
        · exact ⟨Or.inr h1, h2⟩
      · rintro ⟨h1 | h1, h2⟩
        · exact Or.inl h1
        · exact Or.inr ⟨h1, h2⟩

/-! ## Order Settlement Engine — `POST /api/orders` (src/index.js lines 754-809)

The handler: load the cart (`cartData?.items || []`), reject an empty
cart with 400 "Cart is empty", build the order payload by spreading the
caller-supplied `orderDetails` over `{userId, items}` and then writing
`createdAt` and `status`, persist the order, settle each cart line
against `Products`, and finally clear the cart. -/

/-- The cart line list the handler works with: `cartData?.items || []`. -/
def cartItemsOf (st : DB) (uid : String) : List CartLine :=
  ((getDoc st.carts uid).map CartDoc.items).getD []

/-- The order payload of `POST /api/orders`:
` { userId, items: cartItems, ...orderDetails, createdAt: ..., status: "Pending" } `.
JS spread semantics: a later key wins, so `orderDetails` overrides
`userId` and `items` when it carries those keys, while `createdAt` and
`status`, written after the spread, always take the handler's values. -/
def buildOrderPayload (uid : String) (cartItems : List CartLine) (d : OrderDetails)
    (now : String) : OrderDoc :=
  { userId := d.userId'.getD uid
    items := d.items'.getD cartItems
    createdAt := now
    status := "Pending"
    extra := d.extra }

/-- The per-line product update of `POST /api/orders`: increment `sales`
by 1; decrement `stock` by 1 exactly when the `stock` field is defined. -/
def settleProduct (p : Product) : Product :=
  if p.stock.isSome then
    { p with sales := p.sales + 1, stock := p.stock.map (fun s => s - 1) }
  else
    { p with sales := p.sales + 1 }

/-- The settlement loop of `POST /api/orders`:
for each line with a truthy `item.id`, load the product; if it exists
and `stock` is defined, `update` both counters; otherwise `update` only
`sales` — but Firestore `update()` on a document that does not exist
fails with NOT_FOUND, which the embedding records by stopping the loop
and returning `false` (the thrown error is caught by the handler's
`catch`, producing a 500 after the order was already persisted).
Returns the resulting `Products` collection and whether the loop
completed. -/
def settleLines (ps : List (String × Product)) : List CartLine → List (String × Product) × Bool
  | [] => (ps, true)
  | it :: rest =>
    if it.id = "" then
      -- `if (item.id)` is falsy: the line is skipped entirely
      settleLines ps rest
    else
      match getDoc ps it.id with
      | some p => settleLines (setDoc ps it.id (settleProduct p)) rest
      | none => (ps, false)

/-- The outcome of a `POST /api/orders` request: the database after the
handler finished (or threw) and the HTTP response. -/
structure PlaceOrderResult where
  db : DB
  resp : HResp (String × OrderDoc)
deriving DecidableEq, Repr

/-- `POST /api/orders` (src/index.js lines 754-809).  `oid` is the
auto-generated order document id, `now` the ISO timestamp taken by the
handler. -/
def placeOrder (st : DB) (uid : String) (d : OrderDetails) (oid : String)
    (now : String) : PlaceOrderResult :=
  let cartItems := cartItemsOf st uid
  if cartItems.isEmpty then
    ⟨st, .err 400 "Cart is empty"⟩
  else
    let payload := buildOrderPayload uid cartItems d now
    let st1 : DB := { st with orders := setDoc st.orders oid payload }
    match settleLines st1.products cartItems with
    | (ps, true) =>
        -- all lines settled: clear the cart and answer 200
        ⟨{ st1 with products := ps, carts := setDoc st1.carts uid ⟨[]⟩ },
         .ok 200 (oid, payload)⟩
    | (ps, false) =>
        -- a product `update` threw: the catch block answers 500; the
        -- order stays persisted and the cart is left untouched
        ⟨{ st1 with products := ps }, .err 500 "Failed to place order"⟩

/-! ### Settlement lemmas -/

theorem settleProduct_eq (p : Product) :
    settleProduct p
      = { p with sales := p.sales + 1, stock := p.stock.map (fun s => s - 1) } := by
  cases hs : p.stock <;> simp [settleProduct, hs]

/-- The settlement loop only writes the product documents named by the
lines it processes. -/
theorem settleLines_getDoc_of_notMem :
    ∀ (items : List CartLine) (ps : List (String × Product)) (id : String),
      id ∉ items.map CartLine.id →
      getDoc (settleLines ps items).1 id = getDoc ps id := by
  intro items
  induction items with
  | nil => intro ps id _; rfl
  | cons it rest ih =>
    intro ps id h
    rw [List.map_cons, List.mem_cons] at h
    push_neg at h
    obtain ⟨h1, h2⟩ := h
    by_cases h0 : it.id = ""
    · rw [show settleLines ps (it :: rest) = settleLines ps rest from by
        simp [settleLines, h0]]
      exact ih ps id h2
    · cases hget : getDoc ps it.id with
      | some p =>
        rw [show settleLines ps (it :: rest)
              = settleLines (setDoc ps it.id (settleProduct p)) rest from by
          simp [settleLines, h0, hget]]
        rw [ih _ id h2, getDoc_setDoc_ne _ _ _ _ h1]
      | none =>
        rw [show settleLines ps (it :: rest) = (ps, false) from by
          simp [settleLines, h0, hget]]

/-- When every line has a truthy id and an existing product, and the ids
are pairwise distinct, the settlement loop completes and each product
ends up settled exactly once. -/
theorem settleLines_settles :
    ∀ (items : List CartLine) (ps : List (String × Product)),
      (items.map CartLine.id).Nodup →
      (∀ it ∈ items, it.id ≠ "" ∧ (getDoc ps it.id).isSome) →
      (settleLines ps items).2 = true ∧
      ∀ it ∈ items, ∀ p, getDoc ps it.id = some p →
        getDoc (settleLines ps items).1 it.id = some (settleProduct p) := by
  intro items
  induction items with
  | nil =>
    intro ps _ _
    exact ⟨rfl, by intro it hmem; cases hmem⟩
  | cons it rest ih =>
    intro ps hnd hex
    obtain ⟨hid, hsome⟩ := hex it (List.mem_cons_self it rest)
    obtain ⟨p, hp⟩ := Option.isSome_iff_exists.mp hsome
    have heq : settleLines ps (it :: rest)
        = settleLines (setDoc ps it.id (settleProduct p)) rest := by
      simp [settleLines, hid, hp]
    rw [List.map_cons, List.nodup_cons] at hnd
    obtain ⟨hnotin, hnd2⟩ := hnd
    have hex2 : ∀ x ∈ rest,
        x.id ≠ "" ∧ (getDoc (setDoc ps it.id (settleProduct p)) x.id).isSome := by
      intro x hx
      obtain ⟨hxid, hxsome⟩ := hex x (List.mem_cons_of_mem _ hx)
      refine ⟨hxid, ?_⟩
      rw [getDoc_setDoc_ne]
      · exact hxsome
      · exact fun hh => hnotin (by rw [← hh]; exact List.mem_map_of_mem _ hx)
    obtain ⟨hsucc, hrest⟩ := ih (setDoc ps it.id (settleProduct p)) hnd2 hex2
    refine ⟨by rw [heq]; exact hsucc, ?_⟩
    intro x hx q hq
    rcases List.mem_cons.mp hx with hx1 | hx2
    · subst hx1
      rw [hp] at hq
      injection hq with hq2
      subst hq2
      rw [heq, settleLines_getDoc_of_notMem rest _ x.id hnotin]
      exact getDoc_setDoc_self _ _ _
    · rw [heq]
      apply hrest x hx2
      rw [getDoc_setDoc_ne]
      · exact hq
      · exact fun hh => hnotin (by rw [← hh]; exact List.mem_map_of_mem _ hx2)

/-- **C2.** `POST /api/orders` on an absent or empty cart answers
400 "Cart is empty" and leaves the entire database unchanged: no Order
document is created and no product or cart state is touched. -/
theorem placeOrder_empty_cart (st : DB) (uid : String) (d : OrderDetails)
    (oid now : String) (h : cartItemsOf st uid = []) :
    placeOrder st uid d oid now = ⟨st, .err 400 "Cart is empty"⟩ := by
  simp [placeOrder, h]

/-- Witness for `placeOrder_empty_cart` at a concrete database whose
`Carts` collection is empty. -/
theorem placeOrder_empty_cart_witness :
    cartItemsOf ⟨[], [], [], []⟩ "u1" = [] ∧
    placeOrder ⟨[], [], [], []⟩ "u1" ⟨none, none, none, none, []⟩ "o1" "2025-01-01"
      = ⟨⟨[], [], [], []⟩, .err 400 "Cart is empty"⟩ :=
  ⟨rfl, placeOrder_empty_cart _ _ _ _ _ rfl⟩

/-- **C9.** In `POST /api/orders` the caller-supplied `orderDetails` are
spread into the payload after `userId` and `items` but before
`createdAt` and `status`: whenever the cart is non-empty the persisted
Order takes `orderDetails.userId` / `orderDetails.items` when those keys
are present (overriding the authenticated uid and the cart snapshot),
while its `status` is always `"Pending"` and its `createdAt` is always
the placement timestamp, whatever `orderDetails` contains. -/
theorem orderPayload_spread_override (st : DB) (uid : String) (d : OrderDetails)
    (oid now : String) (h : cartItemsOf st uid ≠ []) :
    ∃ payload : OrderDoc,
      getDoc (placeOrder st uid d oid now).db.orders oid = some payload ∧
      payload.userId = d.userId'.getD uid ∧
      payload.items = d.items'.getD (cartItemsOf st uid) ∧
      payload.createdAt = now ∧
      payload.status = "Pending" := by
  refine ⟨buildOrderPayload uid (cartItemsOf st uid) d now, ?_, rfl, rfl, rfl, rfl⟩
  have hne : (cartItemsOf st uid).isEmpty = false := by
    cases hcc : cartItemsOf st uid with
    | nil => exact absurd hcc h
    | cons a l => rfl
  simp only [placeOrder, hne, Bool.false_eq_true, if_false]
  cases hsl : settleLines st.products (cartItemsOf st uid) with
  | mk ps ok =>
    cases ok <;> simp [hsl]

/-- Witness for `orderPayload_spread_override`: a caller whose
`orderDetails` carry `userId`, `items` and `status` keys; the persisted
order takes the injected `userId`/`items` but keeps status `"Pending"`
and the handler's timestamp. -/
theorem orderPayload_spread_override_witness :
    cartItemsOf ⟨[("u1", ⟨[⟨"p1", "A", .num 10, "i1", "S", 2⟩]⟩)], [], [], []⟩ "u1" ≠ [] ∧
    (∃ payload : OrderDoc,
      getDoc (placeOrder ⟨[("u1", ⟨[⟨"p1", "A", .num 10, "i1", "S", 2⟩]⟩)], [], [], []⟩
          "u1" ⟨some "mallory", some [], none, some "Shipped", []⟩ "o1" "T0").db.orders "o1"
        = some payload ∧
      payload.userId = "mallory" ∧
      payload.items = [] ∧
      payload.createdAt = "T0" ∧
      payload.status = "Pending") :=
  ⟨by decide,
   orderPayload_spread_override ⟨[("u1", ⟨[⟨"p1", "A", .num 10, "i1", "S", 2⟩]⟩)], [], [], []⟩
     "u1" ⟨some "mallory", some [], none, some "Shipped", []⟩ "o1" "T0" (by decide)⟩

/-- **C1 (amended).** For every cart whose items list is non-empty, whose
lines carry pairwise-distinct truthy product ids that all reference
existing products, and whose `orderDetails` do not carry an `items` key,
`POST /api/orders` persists an Order whose items equal the cart's line
list verbatim, clears the cart's items to empty, and for each cart line
increments that product's `sales` by exactly 1 and decrements its
`stock` by exactly 1 when the stock field is defined (sales only when it
is undefined) — regardless of the line's quantity. -/
theorem placeOrder_settles_nonempty_cart
    (st : DB) (uid : String) (d : OrderDetails) (oid now : String) (c : CartDoc)
    (hc : getDoc st.carts uid = some c) (hne : c.items ≠ [])
    (hnd : (c.items.map CartLine.id).Nodup)
    (hex : ∀ it ∈ c.items, it.id ≠ "" ∧ (getDoc st.products it.id).isSome)
    (hdi : d.items' = none) :
    getDoc (placeOrder st uid d oid now).db.orders oid
        = some (buildOrderPayload uid c.items d now) ∧
    (buildOrderPayload uid c.items d now).items = c.items ∧
    getDoc (placeOrder st uid d oid now).db.carts uid = some ⟨[]⟩ ∧
    (∀ it ∈ c.items, ∀ p, getDoc st.products it.id = some p →
        getDoc (placeOrder st uid d oid now).db.products it.id
          = some { p with sales := p.sales + 1, stock := p.stock.map (fun s => s - 1) }) ∧
    (placeOrder st uid d oid now).resp
        = .ok 200 (oid, buildOrderPayload uid c.items d now) := by
  have hitems : cartItemsOf st uid = c.items := by simp [cartItemsOf, hc]
  have hne2 : c.items.isEmpty = false := by
    cases hcc : c.items with
    | nil => exact absurd hcc hne
    | cons a l => rfl
  obtain ⟨hsucc, hfin⟩ := settleLines_settles c.items st.products hnd hex
  cases hsl : settleLines st.products c.items with
  | mk ps ok =>
    rw [hsl] at hsucc hfin
    have hok : ok = true := hsucc
    subst hok
    have hpo : placeOrder st uid d oid now =
        ⟨{ st with orders := setDoc st.orders oid (buildOrderPayload uid c.items d now),
                   products := ps,
                   carts := setDoc st.carts uid ⟨[]⟩ },
         .ok 200 (oid, buildOrderPayload uid c.items d now)⟩ := by
      simp only [placeOrder, hitems, hne2, Bool.false_eq_true, if_false, hsl]
    refine ⟨?_, ?_, ?_, ?_, ?_⟩
    · rw [hpo]; exact getDoc_setDoc_self _ _ _
    · simp [buildOrderPayload, hdi]
    · rw [hpo]; exact getDoc_setDoc_self _ _ _
    · intro it hit p hp
      have hres := hfin it hit p hp
      rw [settleProduct_eq] at hres
      rw [hpo]
      exact hres
    · rw [hpo]

/-- Concrete database for exercising the happy-path settlement: a cart
with two lines (quantities 2 and 1), one product with a stock field and
one without. -/
def settleExDB : DB :=
  ⟨[("u1", ⟨[⟨"p1", "A", .num 10, "i1", "S", 2⟩, ⟨"p2", "B", .str "R5", "i2", "S", 1⟩]⟩)],
   [],
   [("p1", ⟨"S", "u1", "i1", "A", .num 10, some 5, 0, "g"⟩),
    ("p2", ⟨"S", "u1", "i2", "B", .str "R5", none, 3, "g"⟩)],
   []⟩

/-- Witness for `placeOrder_settles_nonempty_cart`: sales go up by 1 and
stock down by 1 even though the first line has quantity 2, the cart is
cleared, and the order snapshot is persisted. -/
theorem placeOrder_settles_nonempty_cart_witness :
    getDoc settleExDB.carts "u1"
      = some ⟨[⟨"p1", "A", .num 10, "i1", "S", 2⟩, ⟨"p2", "B", .str "R5", "i2", "S", 1⟩]⟩ ∧
    getDoc (placeOrder settleExDB "u1" ⟨none, none, none, none, []⟩ "o1" "T").db.carts "u1"
      = some ⟨[]⟩ ∧
    getDoc (placeOrder settleExDB "u1" ⟨none, none, none, none, []⟩ "o1" "T").db.products "p1"
      = some ⟨"S", "u1", "i1", "A", .num 10, some 4, 1, "g"⟩ ∧
    getDoc (placeOrder settleExDB "u1" ⟨none, none, none, none, []⟩ "o1" "T").db.products "p2"
      = some ⟨"S", "u1", "i2", "B", .str "R5", none, 4, "g"⟩ ∧
    (placeOrder settleExDB "u1" ⟨none, none, none, none, []⟩ "o1" "T").resp
      = .ok 200 ("o1",
          ⟨"u1", [⟨"p1", "A", .num 10, "i1", "S", 2⟩, ⟨"p2", "B", .str "R5", "i2", "S", 1⟩],
           "T", "Pending", []⟩) := by
  have H := placeOrder_settles_nonempty_cart settleExDB "u1" ⟨none, none, none, none, []⟩
    "o1" "T" ⟨[⟨"p1", "A", .num 10, "i1", "S", 2⟩, ⟨"p2", "B", .str "R5", "i2", "S", 1⟩]⟩
    (by decide) (by decide) (by decide) (by decide) rfl
  refine ⟨by decide, H.2.2.1, ?_, ?_, H.2.2.2.2⟩
  · have h1 := H.2.2.2.1 ⟨"p1", "A", .num 10, "i1", "S", 2⟩ (by decide)
      ⟨"S", "u1", "i1", "A", .num 10, some 5, 0, "g"⟩ (by decide)
    simpa using h1
  · have h2 := H.2.2.2.1 ⟨"p2", "B", .str "R5", "i2", "S", 1⟩ (by decide)
      ⟨"S", "u1", "i2", "B", .str "R5", none, 3, "g"⟩ (by decide)
    simpa using h2

/-- **C1 (counterexample to the claim as stated).**  Unrestricted, the
claim fails on two fronts.  (a) A non-empty cart whose single line
references a product that no longer exists: the settlement loop's else
branch calls `update()` on the missing document, the thrown NOT_FOUND
aborts the request with 500 and the cart is *not* cleared.  (b) An
`orderDetails` body carrying an `items` key: the spread overrides the
cart snapshot, so the persisted Order's items do not equal the cart's
line list. -/
theorem placeOrder_claimC1_counterexample :
    (getDoc (placeOrder ⟨[("u2", ⟨[⟨"gone", "X", .num 1, "i", "S", 1⟩]⟩)], [], [], []⟩
        "u2" ⟨none, none, none, none, []⟩ "o2" "T").db.carts "u2"
      = some ⟨[⟨"gone", "X", .num 1, "i", "S", 1⟩]⟩) ∧
    (placeOrder ⟨[("u2", ⟨[⟨"gone", "X", .num 1, "i", "S", 1⟩]⟩)], [], [], []⟩
        "u2" ⟨none, none, none, none, []⟩ "o2" "T").resp
      = .err 500 "Failed to place order" ∧
    (∃ o : OrderDoc,
      getDoc (placeOrder ⟨[("u3", ⟨[⟨"p9", "Y", .num 2, "i", "S", 1⟩]⟩)], [],
            [("p9", ⟨"S", "u3", "i", "Y", .num 2, none, 0, "g"⟩)], []⟩
          "u3" ⟨none, some [], none, none, []⟩ "o3" "T").db.orders "o3" = some o ∧
      o.items ≠ [⟨"p9", "Y", .num 2, "i", "S", 1⟩]) :=
  ⟨by decide, by decide, ⟨"u3", [], "T", "Pending", []⟩, by decide, by decide⟩

/-- **C3.**  When a cart line references a Product that no longer
exists, `POST /api/orders` does *not* skip the line silently: the else
branch of the settlement loop still issues
`productRef.update({sales: increment(1)})` against the missing document,
which fails, so the request answers 500, the remaining lines are never
processed (here `pP` keeps `sales = 0`, `stock = 7`), the cart is not
cleared — while the Order document has already been persisted. -/
theorem placeOrder_missing_product_aborts :
    (placeOrder ⟨[("u4", ⟨[⟨"ghost", "G", .num 1, "i", "S", 1⟩, ⟨"pP", "P", .num 2, "i", "S", 1⟩]⟩)],
        [], [("pP", ⟨"S", "u4", "i", "P", .num 2, some 7, 0, "g"⟩)], []⟩
      "u4" ⟨none, none, none, none, []⟩ "o4" "T").resp
      = .err 500 "Failed to place order" ∧
    getDoc (placeOrder ⟨[("u4", ⟨[⟨"ghost", "G", .num 1, "i", "S", 1⟩, ⟨"pP", "P", .num 2, "i", "S", 1⟩]⟩)],
        [], [("pP", ⟨"S", "u4", "i", "P", .num 2, some 7, 0, "g"⟩)], []⟩
      "u4" ⟨none, none, none, none, []⟩ "o4" "T").db.orders "o4"
      = some ⟨"u4", [⟨"ghost", "G", .num 1, "i", "S", 1⟩, ⟨"pP", "P", .num 2, "i", "S", 1⟩],
              "T", "Pending", []⟩ ∧
    getDoc (placeOrder ⟨[("u4", ⟨[⟨"ghost", "G", .num 1, "i", "S", 1⟩, ⟨"pP", "P", .num 2, "i", "S", 1⟩]⟩)],
        [], [("pP", ⟨"S", "u4", "i", "P", .num 2, some 7, 0, "g"⟩)], []⟩
      "u4" ⟨none, none, none, none, []⟩ "o4" "T").db.products "pP"
      = some ⟨"S", "u4", "i", "P", .num 2, some 7, 0, "g"⟩ ∧
    getDoc (placeOrder ⟨[("u4", ⟨[⟨"ghost", "G", .num 1, "i", "S", 1⟩, ⟨"pP", "P", .num 2, "i", "S", 1⟩]⟩)],
        [], [("pP", ⟨"S", "u4", "i", "P", .num 2, some 7, 0, "g"⟩)], []⟩
      "u4" ⟨none, none, none, none, []⟩ "o4" "T").db.carts "u4"
      = some ⟨[⟨"ghost", "G", .num 1, "i", "S", 1⟩, ⟨"pP", "P", .num 2, "i", "S", 1⟩]⟩ := by
  refine ⟨by decide, by decide, by decide, by decide⟩

/-! ## Cart Manager

Two revisions of `POST /api/cart/add` exist in the repository:
* src/index.js lines 1096-1141 — takes the line fields from the request
  body and, when a line with the same id is already present, does
  nothing;
* src/unnamed/part_000 lines 309-364 — takes only a `productId`, loads
  the product (404 when absent) and, inside a transaction, increments
  the quantity of an existing line by 1.
-/

/-- Firestore `FieldValue.arrayUnion(x)`: append `x` unless the exact
value is already an element. -/
def arrayUnion (xs : List CartLine) (x : CartLine) : List CartLine :=
  if x ∈ xs then xs else xs ++ [x]

/-- The request body of the src/index.js `POST /api/cart/add`
(`{id, name, price, imageUrl, Seller}`). -/
structure AddBody where
  id : String
  name : String
  price : PriceVal
  image : String
  Seller : String
deriving DecidableEq, Repr

/-- The new line built by src/index.js `POST /api/cart/add`: body fields
plus `quantity: 1`. -/
def lineOfBody (b : AddBody) : CartLine :=
  ⟨b.id, b.name, b.price, b.image, b.Seller, 1⟩

/-- `POST /api/cart/add` (src/index.js lines 1096-1141): if the cart
exists and already holds a line with this id, do nothing; otherwise
`arrayUnion` the new line; create the cart with the single line when it
does not exist. -/
def cartAdd (carts : List (String × CartDoc)) (uid : String) (b : AddBody) :
    List (String × CartDoc) :=
  match getDoc carts uid with
  | some cart =>
      if cart.items.any (fun it => it.id == b.id) then
        carts
      else
        setDoc carts uid ⟨arrayUnion cart.items (lineOfBody b)⟩
  | none => setDoc carts uid ⟨[lineOfBody b]⟩

/-- `n` successive identical `POST /api/cart/add` requests
(src/index.js revision). -/
def cartAddN (carts : List (String × CartDoc)) (uid : String) (b : AddBody) :
    Nat → List (String × CartDoc)
  | 0 => carts
  | n + 1 => cartAddN (cartAdd carts uid b) uid b n

/-- JS `Array.prototype.findIndex`, as an `Option Nat`. -/
def findIndex (p : α → Bool) : List α → Option Nat
  | [] => none
  | a :: rest => if p a then some 0 else (findIndex p rest).map (fun n => n + 1)

/-- JS array copy-and-replace at an index
(`updatedItems[i] = {...updatedItems[i], ...}`). -/
def modifyAt : List α → Nat → (α → α) → List α
  | [], _, _ => []
  | a :: rest, 0, f => f a :: rest
  | a :: rest, n + 1, f => a :: modifyAt rest n f

/-- `POST /api/cart/add` (src/unnamed/part_000 lines 309-364): load the
product (404 → `none` when absent), then transactionally either bump the
quantity of the existing line with this id by 1, `arrayUnion` a fresh
line built from the product data, or create the cart. -/
def cartAddTx (st : DB) (uid productId : String) : Option DB :=
  match getDoc st.products productId with
  | none => none
  | some productData =>
    let newLine : CartLine :=
      ⟨productId, productData.name, productData.price, productData.image,
       productData.Seller, 1⟩
    let newCarts :=
      match getDoc st.carts uid with
      | some cart =>
        match findIndex (fun it => it.id == productId) cart.items with
        | some i =>
            setDoc st.carts uid
              ⟨modifyAt cart.items i (fun it => { it with quantity := it.quantity + 1 })⟩
        | none => setDoc st.carts uid ⟨arrayUnion cart.items newLine⟩
      | none => setDoc st.carts uid ⟨[newLine]⟩
    some { st with carts := newCarts }

/-- `n` successive identical `POST /api/cart/add` requests
(src/unnamed/part_000 revision); `none` as soon as one answers 404. -/
def cartAddTxN (st : DB) (uid productId : String) : Nat → Option DB
  | 0 => some st
  | n + 1 =>
    match cartAddTx st uid productId with
    | none => none
    | some st2 => cartAddTxN st2 uid productId n

/-- `GET /api/cart/retrieve` (src/index.js lines 1183-1200): the cart's
items, `[]` when the document (or its items field) is absent; always
a 200. -/
def cartRetrieve (carts : List (String × CartDoc)) (uid : String) :
    HResp (List CartLine) :=
  match getDoc carts uid with
  | some c => .ok 200 c.items
  | none => .ok 200 []

/-- `GET /api/cart` (src/unnamed/part_000 lines 388-401): when the cart
document exists, answer its items.  When it does not, the else branch
also evaluates `cartDoc.data().items` — but `data()` of a non-existent
snapshot is `undefined`, so the property access throws a TypeError,
which the handler's catch turns into a 500 "Failed to retrieve cart". -/
def cartRetrieveVariant (carts : List (String × CartDoc)) (uid : String) :
    HResp (List CartLine) :=
  match getDoc carts uid with
  | some c => .ok 200 c.items
  | none => .err 500 "Failed to retrieve cart"

/-! ### Cart lemmas and claims -/

/-- One transactional add onto a cart holding exactly the one line for
this product bumps its quantity by 1. -/
theorem cartAddTx_singleton_step (st : DB) (uid pid : String) (pd : Product) (q : Int)
    (hp : getDoc st.products pid = some pd)
    (hc : getDoc st.carts uid
        = some ⟨[⟨pid, pd.name, pd.price, pd.image, pd.Seller, q⟩]⟩) :
    cartAddTx st uid pid
      = some { st with
          carts := setDoc st.carts uid
            ⟨[⟨pid, pd.name, pd.price, pd.image, pd.Seller, q + 1⟩]⟩ } := by
  simp [cartAddTx, hp, hc, findIndex, modifyAt]

/-- Iterating the transactional add on a singleton cart adds the number
of calls to the quantity. -/
theorem cartAddTxN_singleton (uid pid : String) (pd : Product) :
    ∀ (n : Nat) (st : DB) (q : Int),
      getDoc st.products pid = some pd →
      getDoc st.carts uid
          = some ⟨[⟨pid, pd.name, pd.price, pd.image, pd.Seller, q⟩]⟩ →
      ∃ st2, cartAddTxN st uid pid n = some st2 ∧
        getDoc st2.carts uid
          = some ⟨[⟨pid, pd.name, pd.price, pd.image, pd.Seller, q + (n : Int)⟩]⟩ := by
  intro n
  induction n with
  | zero => intro st q hp hc; exact ⟨st, rfl, by simpa using hc⟩
  | succ m ih =>
    intro st q hp hc
    have hstep := cartAddTx_singleton_step st uid pid pd q hp hc
    rw [show cartAddTxN st uid pid (m + 1)
          = cartAddTxN
              { st with
                carts := setDoc st.carts uid
                  ⟨[⟨pid, pd.name, pd.price, pd.image, pd.Seller, q + 1⟩]⟩ }
              uid pid m from by
      simp [cartAddTxN, hstep]]
    obtain ⟨st2, h1, h2⟩ := ih
      { st with
        carts := setDoc st.carts uid
          ⟨[⟨pid, pd.name, pd.price, pd.image, pd.Seller, q + 1⟩]⟩ }
      (q + 1) (by simpa using hp) (by simp)
    refine ⟨st2, h1, ?_⟩
    rw [h2]
    have : q + 1 + (m : Int) = q + ((m : Int) + 1) := by ring
    rw [this]
    push_cast
    ring_nf

/-- A src/index.js add onto a cart already holding a line with the same
id is a no-op. -/
theorem cartAdd_already_present (carts : List (String × CartDoc)) (uid : String)
    (b : AddBody) (c : CartDoc) (hc : getDoc carts uid = some c)
    (hmem : c.items.any (fun it => it.id == b.id) = true) :
    cartAdd carts uid b = carts := by
  simp [cartAdd, hc, hmem]

/-- Once the cart is the singleton `[lineOfBody b]`, any number of
further src/index.js adds of `b` leaves it unchanged. -/
theorem cartAddN_stable (uid : String) (b : AddBody) :
    ∀ (m : Nat) (carts : List (String × CartDoc)),
      getDoc carts uid = some ⟨[lineOfBody b]⟩ →
      getDoc (cartAddN carts uid b m) uid = some ⟨[lineOfBody b]⟩ := by
  intro m
  induction m with
  | zero => intro carts hc; exact hc
  | succ j ih =>
    intro carts hc
    rw [show cartAddN carts uid b (j + 1) = cartAddN (cartAdd carts uid b) uid b j from rfl]
    rw [cartAdd_already_present carts uid b ⟨[lineOfBody b]⟩ hc (by simp [lineOfBody])]
    exact ih carts hc

/-- **C4 (amended).**  Starting from a user with no cart and an existing
product `pid`, `n ≥ 1` repeated `POST /api/cart/add` calls leave exactly
one cart line for `pid` in both revisions — with quantity `n` in the
transactional revision (src/unnamed/part_000), but with quantity `1` in
the src/index.js revision, whose repeated add of an already-present
product is a no-op. -/
theorem cartAdd_quantity_accumulation (st : DB) (uid pid : String) (pd : Product) (n : Nat)
    (hp : getDoc st.products pid = some pd)
    (hc : getDoc st.carts uid = none)
    (hn : 1 ≤ n) :
    (∃ st2, cartAddTxN st uid pid n = some st2 ∧
       getDoc st2.carts uid
         = some ⟨[⟨pid, pd.name, pd.price, pd.image, pd.Seller, (n : Int)⟩]⟩) ∧
    (∀ (carts : List (String × CartDoc)) (b : AddBody) (m : Nat),
       getDoc carts uid = none → 1 ≤ m →
       getDoc (cartAddN carts uid b m) uid = some ⟨[lineOfBody b]⟩) := by
  constructor
  · cases n with
    | zero => exact absurd hn (by decide)
    | succ k =>
      have h1 : cartAddTx st uid pid
          = some { st with
              carts := setDoc st.carts uid
                ⟨[⟨pid, pd.name, pd.price, pd.image, pd.Seller, 1⟩]⟩ } := by
        simp [cartAddTx, hp, hc]
      rw [show cartAddTxN st uid pid (k + 1)
            = cartAddTxN
                { st with
                  carts := setDoc st.carts uid
                    ⟨[⟨pid, pd.name, pd.price, pd.image, pd.Seller, 1⟩]⟩ }
                uid pid k from by
        simp [cartAddTxN, h1]]
      obtain ⟨st2, h2, h3⟩ := cartAddTxN_singleton uid pid pd k
        { st with
          carts := setDoc st.carts uid
            ⟨[⟨pid, pd.name, pd.price, pd.image, pd.Seller, 1⟩]⟩ }
        1 (by simpa using hp) (by simp)
      refine ⟨st2, h2, ?_⟩
      rw [h3]
      have : (1 : Int) + (k : Int) = ((k + 1 : Nat) : Int) := by push_cast; ring
      rw [this]
  · intro carts b m hcm hm
    cases m with
    | zero => exact absurd hm (by decide)
    | succ j =>
      rw [show cartAddN carts uid b (j + 1) = cartAddN (cartAdd carts uid b) uid b j from rfl]
      have h1 : cartAdd carts uid b = setDoc carts uid ⟨[lineOfBody b]⟩ := by
        simp [cartAdd, hcm]
      rw [h1]
      exact cartAddN_stable uid b j _ (getDoc_setDoc_self _ _ _)

/-- Witness for `cartAdd_quantity_accumulation`: three transactional
adds of product `p1` yield one line with quantity 3; two src/index.js
adds of a body yield one line with quantity 1. -/
theorem cartAdd_quantity_accumulation_witness :
    (getDoc (DB.mk [] [] [("p1", ⟨"S", "u6", "i", "N", .num 3, some 9, 0, "g"⟩)] []).products "p1"
        = some ⟨"S", "u6", "i", "N", .num 3, some 9, 0, "g"⟩ ∧
     getDoc (DB.mk [] [] [("p1", ⟨"S", "u6", "i", "N", .num 3, some 9, 0, "g"⟩)] []).carts "u6"
        = none ∧ 1 ≤ 3) ∧
    (∃ st2, cartAddTxN (DB.mk [] [] [("p1", ⟨"S", "u6", "i", "N", .num 3, some 9, 0, "g"⟩)] [])
          "u6" "p1" 3 = some st2 ∧
        getDoc st2.carts "u6" = some ⟨[⟨"p1", "N", .num 3, "i", "S", (3 : Int)⟩]⟩) ∧
    getDoc (cartAddN [] "u6" ⟨"q1", "M", .num 2, "i", "T"⟩ 2) "u6"
        = some ⟨[lineOfBody ⟨"q1", "M", .num 2, "i", "T"⟩]⟩ := by
  have H := cartAdd_quantity_accumulation
    (DB.mk [] [] [("p1", ⟨"S", "u6", "i", "N", .num 3, some 9, 0, "g"⟩)] [])
    "u6" "p1" ⟨"S", "u6", "i", "N", .num 3, some 9, 0, "g"⟩ 3 (by decide) rfl (by decide)
  exact ⟨⟨by decide, rfl, by decide⟩, H.1, H.2 [] ⟨"q1", "M", .num 2, "i", "T"⟩ 2 rfl (by decide)⟩

/-- **C4 (counterexample to the claim as stated).**  On the src/index.js
`POST /api/cart/add`, two adds of the same product starting from no cart
leave a single line whose quantity is 1, not 2: the repeated add of an
already-present product is a no-op, so the quantity does not equal the
call count. -/
theorem cartAdd_claimC4_counterexample :
    cartAddN [] "u5" ⟨"p1", "N", .num 3, "i", "S"⟩ 2
      = [("u5", ⟨[⟨"p1", "N", .num 3, "i", "S", 1⟩]⟩)] ∧
    ¬ (∀ c : CartDoc,
        getDoc (cartAddN [] "u5" ⟨"p1", "N", .num 3, "i", "S"⟩ 2) "u5" = some c →
        ∀ it ∈ c.items, it.id = "p1" → it.quantity = 2) := by
  refine ⟨by decide, fun h => ?_⟩
  have h1 := h ⟨[⟨"p1", "N", .num 3, "i", "S", 1⟩]⟩ (by decide)
    ⟨"p1", "N", .num 3, "i", "S", 1⟩ (by decide) rfl
  exact absurd h1 (by decide)

/-- **C7.**  For a user with no Cart document, the src/index.js
`GET /api/cart/retrieve` answers 200 with an empty items list — but the
src/unnamed/part_000 `GET /api/cart` (also named by the claim) evaluates
`cartDoc.data().items` on a non-existent snapshot, whose `data()` is
`undefined`; the thrown TypeError is caught and surfaced as a 500, so
that endpoint does not succeed with an empty list. -/
theorem cartRetrieve_absent_cart :
    cartRetrieve [] "u7" = .ok 200 [] ∧
    getDoc ([] : List (String × CartDoc)) "u7" = none ∧
    cartRetrieveVariant [] "u7" = .err 500 "Failed to retrieve cart" := by
  exact ⟨rfl, rfl, rfl⟩

/-! ## Seller Profile Propagator

`POST /api/seller/card` also exists in two revisions:
* src/index.js lines 586-632 — on update of an existing card it also
  batch-overwrites `Seller` and `genre` on every product with this
  SellerID;
* src/index.js lines 1383-1420 — same validation and card write, but no
  product propagation.
-/

/-- The request body of `POST /api/seller/card`.  A missing field is
modelled as the empty string, which is exactly what the handler's
falsiness check `!color || !description || ...` rejects. -/
structure CardBody where
  color : String
  description : String
  genre : String
  image : String
  textColor : String
  title : String
deriving DecidableEq, Repr

/-- The handler's required-field check:
`!color || !description || !genre || !image || !textColor || !title`. -/
def cardMissingField (b : CardBody) : Bool :=
  b.color == "" || b.description == "" || b.genre == "" ||
  b.image == "" || b.textColor == "" || b.title == ""

/-- The seller-card document written by the handler (`sellerCardData`). -/
def sellerCardData (uid : String) (b : CardBody) (now : Nat) : SellerDoc :=
  ⟨b.color, b.description, b.genre, b.image, b.textColor, b.title, uid, now⟩

/-- `POST /api/seller/card` (src/index.js lines 586-632): validate the
six fields; if a Seller document exists, update it and batch-update
`Seller`/`genre` on every product whose SellerID is this user (200);
otherwise create the card (201). -/
def upsertSellerCard (st : DB) (uid : String) (b : CardBody) (now : Nat) :
    DB × HResp String :=
  if cardMissingField b then
    (st, .err 400 "Missing required seller card data.")
  else
    match getDoc st.sellers uid with
    | some _ =>
        ({ st with
            sellers := setDoc st.sellers uid (sellerCardData uid b now),
            products := st.products.map (fun kp =>
              if kp.2.SellerID == uid then
                (kp.1, { kp.2 with Seller := b.title, genre := b.genre })
              else kp) },
         .ok 200 "Seller card and products updated successfully.")
    | none =>
        ({ st with sellers := setDoc st.sellers uid (sellerCardData uid b now) },
         .ok 201 "Seller card created successfully.")

/-- `POST /api/seller/card` (src/index.js lines 1383-1420, the second
revision): identical validation and card write, but no product
propagation on update. -/
def upsertSellerCardVariant (st : DB) (uid : String) (b : CardBody) (now : Nat) :
    DB × HResp String :=
  if cardMissingField b then
    (st, .err 400 "Missing required seller card data.")
  else
    match getDoc st.sellers uid with
    | some _ =>
        ({ st with sellers := setDoc st.sellers uid (sellerCardData uid b now) },
         .ok 200 "Seller card updated successfully.")
    | none =>
        ({ st with sellers := setDoc st.sellers uid (sellerCardData uid b now) },
         .ok 201 "Seller card created successfully.")

/-- A write issued against the document store by the cascade delete. -/
inductive StoreOp where
  | deleteProduct (id : String)
  | deleteSeller (id : String)
deriving DecidableEq, Repr

/-- `DELETE /api/seller/card` (src/index.js lines 550-574): query every
product with this SellerID, delete them all (`Promise.all` of the
individual deletes), then delete the Seller document.  Besides the
resulting database, the embedding returns the issued operations in
program order. -/
def deleteSellerCard (st : DB) (uid : String) : DB × List StoreOp :=
  let prodIds := (st.products.filter (fun kp => kp.2.SellerID == uid)).map (fun kp => kp.1)
  let st1 : DB := { st with products := prodIds.foldl (fun ps k => eraseKey ps k) st.products }
  let st2 : DB := { st1 with sellers := eraseKey st1.sellers uid }
  (st2, prodIds.map StoreOp.deleteProduct ++ [StoreOp.deleteSeller uid])

/-- `GET /api/orders/:orderId` (src/index.js lines 728-743).  The
authenticated caller (`user`) is attached to the request but never read
by the handler body. -/
def getOrder (st : DB) (user : String) (orderId : String) : HResp (String × OrderDoc) :=
  match getDoc st.orders orderId with
  | some o => .ok 200 (orderId, o)
  | none => .err 404 "Order not found"

/-! ### Seller-propagation lemmas and claims -/

/-- Membership after folding `eraseKey` over a list of ids: exactly the
entries of the original list whose key is not among the ids survive. -/
theorem mem_foldl_eraseKey :
    ∀ (ids : List String) (l : List (String × α)) (kv : String × α),
      kv ∈ ids.foldl (fun ps k => eraseKey ps k) l → kv ∈ l ∧ kv.1 ∉ ids := by
  intro ids
  induction ids with
  | nil => intro l kv h; exact ⟨h, by simp⟩
  | cons i rest ih =>
    intro l kv h
    rw [List.foldl_cons] at h
    obtain ⟨h1, h2⟩ := ih (eraseKey l i) kv h
    obtain ⟨h3, h4⟩ := mem_eraseKey.mp h1
    exact ⟨h3, by simp [List.mem_cons]; exact ⟨h4, h2⟩⟩

/-- In the operation list `product deletes ++ [seller delete]`, every
product delete sits strictly before every seller delete. -/
theorem deleteOps_ordered (l : List String) (u : String) :
    ∀ (i j : Nat)
      (hi : i < (l.map StoreOp.deleteProduct ++ [StoreOp.deleteSeller u]).length)
      (hj : j < (l.map StoreOp.deleteProduct ++ [StoreOp.deleteSeller u]).length)
      (pid sid : String),
      (l.map StoreOp.deleteProduct ++ [StoreOp.deleteSeller u]).get ⟨i, hi⟩
        = StoreOp.deleteProduct pid →
      (l.map StoreOp.deleteProduct ++ [StoreOp.deleteSeller u]).get ⟨j, hj⟩
        = StoreOp.deleteSeller sid →
      i < j := by
  induction l with
  | nil =>
    intro i j hi hj pid sid h1 h2
    simp only [List.map_nil, List.nil_append, List.length_singleton] at hi
    have hi0 : i = 0 := by omega
    subst hi0
    simp at h1
  | cons a rest ih =>
    intro i j hi hj pid sid h1 h2
    cases j with
    | zero => simp at h2
    | succ j2 =>
      cases i with
      | zero => omega
      | succ i2 =>
        have hi2 : i2 < (rest.map StoreOp.deleteProduct ++ [StoreOp.deleteSeller u]).length := by
          simp only [List.map_cons, List.cons_append, List.length_cons] at hi
          omega
        have hj2 : j2 < (rest.map StoreOp.deleteProduct ++ [StoreOp.deleteSeller u]).length := by
          simp only [List.map_cons, List.cons_append, List.length_cons] at hj
          omega
        have h1b : (rest.map StoreOp.deleteProduct ++ [StoreOp.deleteSeller u]).get ⟨i2, hi2⟩
            = StoreOp.deleteProduct pid := by
          simpa using h1
        have h2b : (rest.map StoreOp.deleteProduct ++ [StoreOp.deleteSeller u]).get ⟨j2, hj2⟩
            = StoreOp.deleteSeller sid := by
          simpa using h2
        have := ih i2 j2 hi2 hj2 pid sid h1b h2b
        omega

/-- **C6.**  After `DELETE /api/seller/card` completes, no Product with
this SellerID remains and the Seller document is gone; in the issued
operation sequence every product deletion precedes the Seller document
removal. -/
theorem deleteSellerCard_cascades (st : DB) (uid : String) :
    (∀ kp ∈ (deleteSellerCard st uid).1.products, kp.2.SellerID ≠ uid) ∧
    getDoc (deleteSellerCard st uid).1.sellers uid = none ∧
    (∀ (i j : Nat) (hi : i < (deleteSellerCard st uid).2.length)
       (hj : j < (deleteSellerCard st uid).2.length) (pid sid : String),
       (deleteSellerCard st uid).2.get ⟨i, hi⟩ = StoreOp.deleteProduct pid →
       (deleteSellerCard st uid).2.get ⟨j, hj⟩ = StoreOp.deleteSeller sid →
       i < j) := by
  refine ⟨?_, ?_, ?_⟩
  · intro kp hkp heq
    have hkp2 : kp ∈ ((st.products.filter (fun kp => kp.2.SellerID == uid)).map
        (fun kp => kp.1)).foldl (fun ps k => eraseKey ps k) st.products := hkp
    obtain ⟨h1, h2⟩ := mem_foldl_eraseKey
      ((st.products.filter (fun kp => kp.2.SellerID == uid)).map (fun kp => kp.1))
      st.products kp hkp2
    apply h2
    apply List.mem_map_of_mem
    rw [List.mem_filter]
    exact ⟨h1, by rw [heq]; exact beq_self_eq_true uid⟩
  · exact getDoc_eraseKey_self _ _
  · exact deleteOps_ordered
      ((st.products.filter (fun kp => kp.2.SellerID == uid)).map (fun kp => kp.1)) uid

/-- Witness for `deleteSellerCard_cascades` at a store holding one
product of seller `u`, one product of seller `v` and u's seller card:
u's card is gone, the surviving product is not u's, and the product
delete (index 0) precedes the seller delete (index 1). -/
theorem deleteSellerCard_cascades_witness :
    getDoc (deleteSellerCard
        ⟨[], [], [("pa", ⟨"U", "u", "i", "A", .num 1, none, 0, "g"⟩),
                  ("pb", ⟨"V", "v", "i", "B", .num 2, none, 0, "g"⟩)],
         [("u", ⟨"c", "d", "g", "i", "t", "U", "u", 0⟩)]⟩ "u").1.sellers "u" = none ∧
    (("pb", (⟨"V", "v", "i", "B", .num 2, none, 0, "g"⟩ : Product)) : String × Product).2.SellerID
      ≠ "u" ∧
    (0 : Nat) < 1 := by
  have H := deleteSellerCard_cascades
    ⟨[], [], [("pa", ⟨"U", "u", "i", "A", .num 1, none, 0, "g"⟩),
              ("pb", ⟨"V", "v", "i", "B", .num 2, none, 0, "g"⟩)],
     [("u", ⟨"c", "d", "g", "i", "t", "U", "u", 0⟩)]⟩ "u"
  refine ⟨H.2.1, H.1 _ (by decide), H.2.2 0 1 (by decide) (by decide) "pa" "u" (by decide) (by decide)⟩

/-- **C5 (amended).** After the propagating `POST /api/seller/card`
revision (src/index.js lines 586-632) completes successfully on an
existing Seller, every Product whose SellerID is this user carries the
new title as `Seller` and the new `genre`; the second revision
(lines 1383-1420) updates only the Seller document and re-establishes
nothing. -/
theorem upsertSellerCard_propagates (st : DB) (uid : String) (b : CardBody) (now : Nat)
    (s : SellerDoc)
    (hv : cardMissingField b = false)
    (hs : getDoc st.sellers uid = some s) :
    (upsertSellerCard st uid b now).2
        = .ok 200 "Seller card and products updated successfully." ∧
    getDoc (upsertSellerCard st uid b now).1.sellers uid = some (sellerCardData uid b now) ∧
    ∀ kp ∈ (upsertSellerCard st uid b now).1.products, kp.2.SellerID = uid →
      kp.2.Seller = b.title ∧ kp.2.genre = b.genre := by
  have heq : upsertSellerCard st uid b now
      = ({ st with
            sellers := setDoc st.sellers uid (sellerCardData uid b now),
            products := st.products.map (fun kp =>
              if kp.2.SellerID == uid then
                (kp.1, { kp.2 with Seller := b.title, genre := b.genre })
              else kp) },
         .ok 200 "Seller card and products updated successfully.") := by
    simp [upsertSellerCard, hv, hs]
  refine ⟨by rw [heq], by rw [heq]; exact getDoc_setDoc_self _ _ _, ?_⟩
  rw [heq]
  intro kp hkp hsid
  obtain ⟨kp0, hmem, hval⟩ := List.mem_map.mp hkp
  by_cases hcase : (kp0.2.SellerID == uid) = true
  · rw [if_pos hcase] at hval
    rw [← hval]
    exact ⟨rfl, rfl⟩
  · rw [if_neg (by simpa using hcase)] at hval
    rw [← hval] at hsid
    exact absurd (by rw [hsid]; exact beq_self_eq_true uid) hcase

/-- Witness for `upsertSellerCard_propagates`: one product of seller
`u9`; after the call its `Seller` is the new title "X" and its genre
"G". -/
theorem upsertSellerCard_propagates_witness :
    cardMissingField ⟨"c", "d", "G", "i", "t", "X"⟩ = false ∧
    (upsertSellerCard
        ⟨[], [], [("pw", ⟨"Old", "u9", "i", "W", .num 1, none, 0, "oldg"⟩)],
         [("u9", ⟨"c", "d", "oldg", "i", "t", "Old", "u9", 0⟩)]⟩
        "u9" ⟨"c", "d", "G", "i", "t", "X"⟩ 5).2
      = .ok 200 "Seller card and products updated successfully." ∧
    ((("pw", (⟨"X", "u9", "i", "W", .num 1, none, 0, "G"⟩ : Product)) : String × Product).2.Seller
        = "X" ∧
     (("pw", (⟨"X", "u9", "i", "W", .num 1, none, 0, "G"⟩ : Product)) : String × Product).2.genre
        = "G") := by
  have H := upsertSellerCard_propagates
    ⟨[], [], [("pw", ⟨"Old", "u9", "i", "W", .num 1, none, 0, "oldg"⟩)],
     [("u9", ⟨"c", "d", "oldg", "i", "t", "Old", "u9", 0⟩)]⟩
    "u9" ⟨"c", "d", "G", "i", "t", "X"⟩ 5 ⟨"c", "d", "oldg", "i", "t", "Old", "u9", 0⟩
    rfl rfl
  exact ⟨rfl, H.1, H.2.2 _ (by decide) rfl⟩

/-- **C5 (counterexample to the claim as stated).**  The second
`POST /api/seller/card` revision (src/index.js lines 1383-1420) answers
200 on an existing Seller but leaves the seller's products untouched:
after updating the title to "X" and genre to "G", the product still
carries `Seller = "Old"` and `genre = "oldg"`. -/
theorem upsertSellerCard_claimC5_counterexample :
    (upsertSellerCardVariant
        ⟨[], [], [("pz", ⟨"Old", "u8", "i", "Z", .num 1, none, 0, "oldg"⟩)],
         [("u8", ⟨"c", "d", "oldg", "i", "t", "Old", "u8", 0⟩)]⟩
        "u8" ⟨"c", "d", "G", "i", "t", "X"⟩ 1).2
      = .ok 200 "Seller card updated successfully." ∧
    getDoc (upsertSellerCardVariant
        ⟨[], [], [("pz", ⟨"Old", "u8", "i", "Z", .num 1, none, 0, "oldg"⟩)],
         [("u8", ⟨"c", "d", "oldg", "i", "t", "Old", "u8", 0⟩)]⟩
        "u8" ⟨"c", "d", "G", "i", "t", "X"⟩ 1).1.products "pz"
      = some ⟨"Old", "u8", "i", "Z", .num 1, none, 0, "oldg"⟩ ∧
    ¬ (∀ kp ∈ (upsertSellerCardVariant
          ⟨[], [], [("pz", ⟨"Old", "u8", "i", "Z", .num 1, none, 0, "oldg"⟩)],
           [("u8", ⟨"c", "d", "oldg", "i", "t", "Old", "u8", 0⟩)]⟩
          "u8" ⟨"c", "d", "G", "i", "t", "X"⟩ 1).1.products,
        kp.2.SellerID = "u8" → kp.2.Seller = "X" ∧ kp.2.genre = "G") := by
  refine ⟨by decide, by decide, fun h => ?_⟩
  have h1 := h ("pz", ⟨"Old", "u8", "i", "Z", .num 1, none, 0, "oldg"⟩) (by decide) rfl
  exact absurd h1.1 (by decide)

/-- **C10.**  `GET /api/orders/:orderId` performs no ownership check:
its response never depends on the authenticated caller — two callers
with different uids get identical responses — and for any existing
order the response is 200 with the order's full data, 404 only when the
order id does not exist. -/
theorem getOrder_no_ownership_check (st : DB) (u1 u2 oid : String) :
    getOrder st u1 oid = getOrder st u2 oid ∧
    (∀ o : OrderDoc, getDoc st.orders oid = some o → getOrder st u1 oid = .ok 200 (oid, o)) ∧
    (getDoc st.orders oid = none → getOrder st u1 oid = .err 404 "Order not found") := by
  refine ⟨rfl, ?_, ?_⟩
  · intro o ho; simp [getOrder, ho]
  · intro ho; simp [getOrder, ho]

/-- Witness for `getOrder_no_ownership_check`: an order owned by
`alice-uid` is served identically to callers "alice" and "bob", and an
unknown id answers 404. -/
theorem getOrder_no_ownership_check_witness :
    getOrder ⟨[], [("o9", ⟨"alice-uid", [], "T", "Pending", []⟩)], [], []⟩ "alice" "o9"
      = getOrder ⟨[], [("o9", ⟨"alice-uid", [], "T", "Pending", []⟩)], [], []⟩ "bob" "o9" ∧
    getOrder ⟨[], [("o9", ⟨"alice-uid", [], "T", "Pending", []⟩)], [], []⟩ "bob" "o9"
      = .ok 200 ("o9", ⟨"alice-uid", [], "T", "Pending", []⟩) ∧
    getOrder ⟨[], [("o9", ⟨"alice-uid", [], "T", "Pending", []⟩)], [], []⟩ "bob" "nope"
      = .err 404 "Order not found" :=
  ⟨(getOrder_no_ownership_check ⟨[], [("o9", ⟨"alice-uid", [], "T", "Pending", []⟩)], [], []⟩
      "alice" "bob" "o9").1,
   (getOrder_no_ownership_check ⟨[], [("o9", ⟨"alice-uid", [], "T", "Pending", []⟩)], [], []⟩
      "bob" "x" "o9").2.1 ⟨"alice-uid", [], "T", "Pending", []⟩ (by decide),
   (getOrder_no_ownership_check ⟨[], [("o9", ⟨"alice-uid", [], "T", "Pending", []⟩)], [], []⟩
      "bob" "x" "nope").2.2 (by decide)⟩

/-! ## Catalog/Reporting — `GET /api/orders/monthly-performance`
(src/index.js lines 483-540) and its `parsePrice` helper (lines 468-474)

The handler builds 12 zero buckets by unshifting one per month from the
current month backwards, queries the orders created since the first day
of the same month one year earlier (ISO-string comparison, i.e. a month
boundary), and adds each order's rounded total to the bucket whose
short month name and year match the order's creation date.

Creation dates are modelled at month granularity (`MonthDate`): the
handler only ever uses the month and year of `createdAt`, and the query
cutoff is exactly a month boundary, so an order passes the cutoff iff
its month does.  JS numbers are `ℚ`; `toFixed(2)` is exact half-up
rounding (ES semantics: ties pick the larger value), and the
`isNaN(itemSubtotal)` guard never fires over `ℚ`. -/

/-- A calendar month: a year and a zero-based month. -/
structure MonthDate where
  year : Int
  month : Fin 12
deriving DecidableEq, Repr

/-- Months since year 0 — the linearisation `new Date(y, m)` normalises
over. -/
def monthIndex (d : MonthDate) : Int := 12 * d.year + (d.month.val : Int)

/-- The month `i` months after January of year 0; `new Date(y, m, 1)`
with an out-of-range `m` normalises to `monthOfIndex (12*y + m)`. -/
def monthOfIndex (i : Int) : MonthDate :=
  ⟨i.ediv 12, ⟨(i.emod 12).toNat, by
    have h1 : 0 ≤ i.emod 12 := Int.emod_nonneg i (by norm_num)
    have h2 : i.emod 12 < 12 := Int.emod_lt_of_pos i (by norm_num)
    omega⟩⟩

/-- `toLocaleString('en-US', {month: 'short'})`. -/
def monthNames : List String :=
  ["Jan", "Feb", "Mar", "Apr", "May", "Jun", "Jul", "Aug", "Sep", "Oct", "Nov", "Dec"]

/-- Short name of a month. -/
def monthShort (m : Fin 12) : String := monthNames.getD m.val ""

/-- Value of a digit string. -/
def digitsToNat (ds : List Char) : Nat :=
  ds.foldl (fun a c => 10 * a + (c.toNat - 48)) 0

/-- JS `parseFloat` on an unsigned prefix of digits / dot characters:
integer digits, then optionally a dot and fraction digits, stopping at
the first character that fits neither; `none` when no digit was
consumed (NaN). -/
def parseFloatMag (cs : List Char) : Option ℚ :=
  let intPart := cs.takeWhile Char.isDigit
  let rest := cs.dropWhile Char.isDigit
  match rest with
  | '.' :: t =>
    let fracPart := t.takeWhile Char.isDigit
    if intPart.isEmpty && fracPart.isEmpty then none
    else some ((digitsToNat intPart : ℚ) + (digitsToNat fracPart : ℚ) / (10 : ℚ) ^ fracPart.length)
  | _ => if intPart.isEmpty then none else some ((digitsToNat intPart : ℚ))

/-- JS `parseFloat` on a string of digits, dots and minus signs (all an
input stripped by `replace(/[^0-9.-]+/g, '')` can contain): an optional
single leading minus, then the unsigned prefix. -/
def parseFloatQ : List Char → Option ℚ
  | '-' :: t => (parseFloatMag t).map (fun q => -q)
  | t => parseFloatMag t

/-- The handler's `parsePrice`: strings are stripped of every character
other than digits, dots and minus signs, then `parseFloat`-ed with `0`
replacing NaN; numbers pass through (a finite number round-trips
`parseFloat`, and `|| 0` maps NaN to 0 and fixes 0 itself). -/
def parsePriceQ : PriceVal → ℚ
  | .str s => (parseFloatQ (s.data.filter (fun c => c.isDigit || c == '.' || c == '-'))).getD 0
  | .num q => q

/-- `parseFloat(x.toFixed(2))`: round to 2 decimals, ties towards the
larger value (ES `toFixed`). -/
def round2 (q : ℚ) : ℚ := ((Int.floor (q * 100 + 1 / 2) : ℚ)) / 100

/-- One line item of an order document as the aggregation reads it:
`item.price` (string or number) and `item.quantity` (`none` models a
value that is not a JS number, which the handler replaces by 1). -/
structure PerfItem where
  price : PriceVal
  quantity : Option ℚ
deriving DecidableEq, Repr

/-- An order document as the aggregation reads it. -/
structure PerfOrder where
  createdAt : MonthDate
  items : List PerfItem
deriving DecidableEq, Repr

/-- The order's `orderTotal`: sum of `parsePrice(price) * quantity`
(quantity defaulting to 1). -/
def orderItemsTotal (items : List PerfItem) : ℚ :=
  items.foldl (fun acc it => acc + parsePriceQ it.price * it.quantity.getD 1) 0

/-- One `monthlySales` bucket: short month name, year, running total. -/
structure MonthlyBucket where
  month : String
  year : Int
  total : ℚ
deriving DecidableEq, Repr

/-- The handler's bucket-construction loop: for `i = 0..11` unshift a
zero bucket for the month `i` months before `now`. -/
def initBuckets (now : MonthDate) : List MonthlyBucket :=
  (List.range 12).foldl
    (fun acc i =>
      let d := monthOfIndex (monthIndex now - (i : Int))
      ⟨monthShort d.month, d.year, 0⟩ :: acc)
    []

/-- `findIndex` on month-name and year plus in-place total update: the
first bucket whose `month`/`year` match receives the amount; no bucket
changes when none matches (`targetMonthIndex === -1`). -/
def bucketAdd (bs : List MonthlyBucket) (mstr : String) (y : Int) (amt : ℚ) :
    List MonthlyBucket :=
  match bs with
  | [] => []
  | b :: rest =>
    if b.month = mstr ∧ b.year = y then { b with total := b.total + amt } :: rest
    else b :: bucketAdd rest mstr y amt

/-- Processing one order document: add its rounded total to the bucket
matching its creation month. -/
def applyOrder (bs : List MonthlyBucket) (o : PerfOrder) : List MonthlyBucket :=
  bucketAdd bs (monthShort o.createdAt.month) o.createdAt.year
    (round2 (orderItemsTotal o.items))

/-- `GET /api/orders/monthly-performance`: orders created since the
first day of this month one year ago, folded into the 12 zero
buckets.  (The query's ascending sort does not change the bucket sums
over `ℚ` and is omitted.) -/
def monthlyPerformance (now : MonthDate) (orders : List PerfOrder) : List MonthlyBucket :=
  (orders.filter (fun o => decide (monthIndex now - 12 ≤ monthIndex o.createdAt))).foldl
    applyOrder (initBuckets now)

/-- The month shown in bucket `j` (0-based, ascending): `11 - j` months
before `now`. -/
def backMonth (now : MonthDate) (j : Nat) : MonthDate :=
  monthOfIndex (monthIndex now - ((11 - j : Nat) : Int))

/-- The 12 canonical buckets carrying an arbitrary total per slot. -/
def canonicalBuckets (now : MonthDate) (t : Nat → ℚ) : List MonthlyBucket :=
  (List.range 12).map (fun j =>
    ⟨monthShort (backMonth now j).month, (backMonth now j).year, t j⟩)

/-! ### Monthly-performance lemmas and claim -/

theorem monthShort_inj : ∀ m1 m2 : Fin 12, monthShort m1 = monthShort m2 → m1 = m2 := by
  decide

/-- The unshift loop produces exactly the 12 canonical zero buckets in
ascending month order. -/
theorem initBuckets_eq_canonical (now : MonthDate) :
    initBuckets now = canonicalBuckets now (fun _ => 0) := rfl

theorem monthDate_eq_of (a b : MonthDate) (hy : a.year = b.year) (hm : a.month = b.month) :
    a = b := by
  cases a; cases b; simp_all

theorem monthIndex_monthOfIndex (i : Int) : monthIndex (monthOfIndex i) = i := by
  simp only [monthIndex, monthOfIndex]
  have h1 : 0 ≤ i.emod 12 := Int.emod_nonneg i (by norm_num)
  have h2 : 12 * i.ediv 12 + i.emod 12 = i := Int.ediv_add_emod i 12
  omega

theorem backMonth_inj (now : MonthDate) (j k : Nat) (hj : j < 12) (hk : k < 12)
    (h : backMonth now j = backMonth now k) : j = k := by
  have h2 : monthIndex (backMonth now j) = monthIndex (backMonth now k) := by rw [h]
  simp only [backMonth, monthIndex_monthOfIndex] at h2
  omega

/-- The handler's month-name/year test identifies an order's month with
a bucket's month exactly. -/
theorem bucket_match_iff (now : MonthDate) (j : Nat) (o : PerfOrder) :
    (monthShort (backMonth now j).month = monthShort o.createdAt.month ∧
        (backMonth now j).year = o.createdAt.year)
      ↔ backMonth now j = o.createdAt := by
  constructor
  · rintro ⟨h1, h2⟩
    exact monthDate_eq_of _ _ h2 (monthShort_inj _ _ h1)
  · intro h
    rw [h]
    exact ⟨rfl, rfl⟩

/-- `bucketAdd` over a mapped list with at most one matching slot
updates exactly that slot. -/
theorem bucketAdd_map_unique (f : Nat → MonthlyBucket) (mstr : String) (y : Int) (amt : ℚ) :
    ∀ ns : List Nat,
      (∀ j ∈ ns, ∀ k ∈ ns, (f j).month = mstr ∧ (f j).year = y →
          (f k).month = mstr ∧ (f k).year = y → j = k) →
      ns.Nodup →
      bucketAdd (ns.map f) mstr y amt
        = ns.map (fun j =>
            if (f j).month = mstr ∧ (f j).year = y then
              { f j with total := (f j).total + amt }
            else f j) := by
  intro ns
  induction ns with
  | nil => intro _ _; rfl
  | cons n rest ih =>
    intro huniq hnd
    rw [List.nodup_cons] at hnd
    rw [List.map_cons, List.map_cons]
    by_cases hn : (f n).month = mstr ∧ (f n).year = y
    · rw [show bucketAdd (f n :: rest.map f) mstr y amt
            = { f n with total := (f n).total + amt } :: rest.map f from by
        simp [bucketAdd, hn]]
      rw [if_pos hn]
      congr 1
      symm
      apply List.map_congr_left
      intro j hj
      rw [if_neg]
      intro hmatch
      have hjn := huniq j (List.mem_cons_of_mem _ hj) n (List.mem_cons_self _ _) hmatch hn
      exact hnd.1 (hjn ▸ hj)
    · rw [show bucketAdd (f n :: rest.map f) mstr y amt
            = f n :: bucketAdd (rest.map f) mstr y amt from by
        simp [bucketAdd, hn]]
      rw [if_neg hn]
      congr 1
      exact ih
        (fun j hj k hk a b =>
          huniq j (List.mem_cons_of_mem _ hj) k (List.mem_cons_of_mem _ hk) a b)
        hnd.2

/-- Processing one order adds its rounded total to exactly the bucket of
its creation month (when that month is among the 12). -/
theorem applyOrder_canonical (now : MonthDate) (t : Nat → ℚ) (o : PerfOrder) :
    applyOrder (canonicalBuckets now t) o
      = canonicalBuckets now (fun j =>
          t j + if backMonth now j = o.createdAt then round2 (orderItemsTotal o.items) else 0) := by
  rw [applyOrder, canonicalBuckets, canonicalBuckets]
  rw [bucketAdd_map_unique
      (fun j => ⟨monthShort (backMonth now j).month, (backMonth now j).year, t j⟩)
      (monthShort o.createdAt.month) o.createdAt.year (round2 (orderItemsTotal o.items))
      (List.range 12)
      (fun j hj k hk a b =>
        backMonth_inj now j k (List.mem_range.mp hj) (List.mem_range.mp hk)
          (((bucket_match_iff now j o).mp a).trans ((bucket_match_iff now k o).mp b).symm))
      (List.nodup_range 12)]
  apply List.map_congr_left
  intro j hj
  by_cases hm : backMonth now j = o.createdAt
  · rw [if_pos ((bucket_match_iff now j o).mpr hm), if_pos hm]
  · rw [if_neg (fun a => hm ((bucket_match_iff now j o).mp a)), if_neg hm]
    simp

/-- Folding any order list over the canonical buckets accumulates, per
bucket, the sum of the rounded totals of the orders of that month. -/
theorem foldl_applyOrder_canonical (now : MonthDate) :
    ∀ (l : List PerfOrder) (t : Nat → ℚ),
      l.foldl applyOrder (canonicalBuckets now t)
        = canonicalBuckets now (fun j =>
            t j + ((l.filter (fun o => decide (o.createdAt = backMonth now j))).map
              (fun o => round2 (orderItemsTotal o.items))).sum) := by
  intro l
  induction l with
  | nil =>
    intro t
    simp only [List.foldl_nil, List.filter_nil, List.map_nil, List.sum_nil]
    unfold canonicalBuckets
    apply List.map_congr_left
    intro j hj
    simp
  | cons o rest ih =>
    intro t
    rw [List.foldl_cons, applyOrder_canonical, ih]
    unfold canonicalBuckets
    apply List.map_congr_left
    intro j hj
    simp only [List.filter_cons, MonthlyBucket.mk.injEq, true_and]
    by_cases hm : o.createdAt = backMonth now j
    · simp only [hm, decide_True, if_true, List.map_cons, List.sum_cons, eq_self_iff_true]
      ring
    · rw [if_neg (fun a => hm a.symm)]
      simp only [hm, decide_False, Bool.false_eq_true, if_false]
      ring

/-- **C8.**  The monthly-performance aggregation returns, for every
reference month and order set, exactly the 12 canonical buckets: bucket
`j` carries the month `11 - j` months before now (so the buckets are
the last 12 calendar months in ascending order, zero-filled when no
order matches, since an empty sum is 0) and its total is the sum of the
per-order `toFixed(2)`-rounded totals of the in-window orders of that
month; prices parse by stripping non-numeric/non-dot/non-minus
characters, so an item priced "R12.50" with quantity 2 contributes
25.00, and an unparsable price contributes 0. -/
theorem monthlyPerformance_buckets (now : MonthDate) (orders : List PerfOrder) :
    monthlyPerformance now orders
      = canonicalBuckets now (fun j =>
          (((orders.filter (fun o =>
                decide (monthIndex now - 12 ≤ monthIndex o.createdAt))).filter
              (fun o => decide (o.createdAt = backMonth now j))).map
            (fun o => round2 (orderItemsTotal o.items))).sum) ∧
    (monthlyPerformance now orders).length = 12 ∧
    (∀ j : Fin 12, monthIndex (backMonth now j.val) = monthIndex now - 11 + (j.val : Int)) ∧
    round2 (orderItemsTotal [⟨.str "R12.50", some 2⟩]) = 25 ∧
    parsePriceQ (.str "xyz") = 0 := by
  have hmain : monthlyPerformance now orders
      = canonicalBuckets now (fun j =>
          (((orders.filter (fun o =>
                decide (monthIndex now - 12 ≤ monthIndex o.createdAt))).filter
              (fun o => decide (o.createdAt = backMonth now j))).map
            (fun o => round2 (orderItemsTotal o.items))).sum) := by
    rw [monthlyPerformance, initBuckets_eq_canonical, foldl_applyOrder_canonical]
    unfold canonicalBuckets
    apply List.map_congr_left
    intro j hj
    simp
  refine ⟨hmain, ?_, ?_, ?_, ?_⟩
  · rw [hmain]
    simp [canonicalBuckets]
  · intro j
    rw [backMonth, monthIndex_monthOfIndex]
    have := j.isLt
    omega
  · rw [show orderItemsTotal [⟨.str "R12.50", some 2⟩]
          = 0 + ((digitsToNat ['1', '2'] : ℚ)
              + (digitsToNat ['5', '0'] : ℚ) / 10 ^ (['5', '0'].length)) * 2 from rfl]
    rw [show digitsToNat ['1', '2'] = 12 from by decide,
        show digitsToNat ['5', '0'] = 50 from by decide]
    norm_num [round2]
  · decide
